import Mathlib

/-!
Verification of the cc-fi session indexer against its specification.

This file gives a shallow embedding, in Lean 4, of the parts of the cc-fi
code base that the specified properties talk about:

* the `SessionData` record (`cc_fi/models/session.py`), its content
  fingerprint and its dict (de)serialization;
* the deduplicator (`cc_fi/core/deduplicator.py`);
* the cache manager (`cc_fi/core/cache.py`), with filesystem effects made
  explicit through an environment record;
* the formatter (`cc_fi/core/formatter.py`): dynamic column widths,
  whitespace normalization, truncation, list rows, fuzzy-match
  highlighting.

Modelling conventions:

* Python strings are `List Char` (called `Str` here); Python slicing with a
  possibly negative stop index is modelled by `pythonTake`.
* Python `datetime` values are modelled by a `DateTime` structure holding
  the calendar fields the code reads.  `datetime.isoformat` is injective
  and `datetime.fromisoformat` is its left inverse, so the serialized
  ISO-8601 timestamp is modelled by a cache value constructor that carries
  the `DateTime` itself.
* `pathlib.Path` values are modelled by their (already normalized) string
  form: `Path(str(p)) == p` holds for every `Path p`, so `str`/`Path`
  round-trips are identities in the model.
* Python `float` timestamps (`last_modified`, the cache write time) are
  modelled as integers: no claim depends on fractional values, only on the
  ordering, which the integer model preserves.
* Python dicts built by `to_dict` / read by `from_dict` are association
  lists; insertion order is the literal order of the Python dict literal.
-/

/-- Python strings, modelled as lists of characters. -/
abbrev Str := List Char

/-- Coerce a Lean string literal to the `Str` model. -/
def str (s : String) : Str := s.data

/-- Python `s[:k]`: for `k ≥ 0` the first `k` characters, for `k < 0` all
but the last `-k` characters (empty when `-k` exceeds the length). -/
def pythonTake (s : Str) (k : Int) : Str :=
  if 0 ≤ k then s.take k.toNat else s.take (s.length - (-k).toNat)

/-- The calendar fields of a Python `datetime` that the code reads
(`strftime`, `isoformat`, equality). -/
structure DateTime where
  year : Nat
  month : Nat
  day : Nat
  hour : Nat
  minute : Nat
  second : Nat
deriving DecidableEq, Repr

/-- The `SessionData` dataclass of `cc_fi/models/session.py`: the eleven
declared fields, with `timestamp` a `DateTime`, `file_path` its string
form and `last_modified` an integer timestamp. -/
structure SessionData where
  session_id : Str
  cwd : Str
  project_name : Str
  git_branch : Str
  timestamp : DateTime
  first_message : Str
  last_message : Str
  message_count : Int
  file_path : Str
  last_modified : Int
  full_content : Str
deriving DecidableEq, Repr

namespace SessionData

/-- `SessionData.content_fingerprint`: the tuple
`(timestamp.isoformat(), first_message[:100], cwd)`.  Since `isoformat` is
injective and deterministic, fingerprint equality is equality of the
underlying `(timestamp, first_message[:100], cwd)` triples, which is how
the model represents it. -/
def content_fingerprint (s : SessionData) : DateTime × Str × Str :=
  (s.timestamp, pythonTake s.first_message 100, s.cwd)

end SessionData

/-! ## Deduplicator (`cc_fi/core/deduplicator.py`)

Python dicts preserve insertion order, and assignment to an existing key
keeps its position.  The `seen_ids` / `seen_fingerprints` dicts are
modelled as association lists in insertion order; `list(d.values())` is
`List.map Prod.snd`. -/

/-- Ordered-dict key lookup: the value at the first (hence unique) entry
whose key is `k`. -/
def lookupKey {κ α : Type} [DecidableEq κ] (k : κ) :
    List (κ × α) → Option α
  | [] => none
  | (k', v) :: rest => if k' = k then some v else lookupKey k rest

/-- Assignment `d[k] = v` for a key `k` already present: the value at `k`
is replaced in place, every other entry is untouched. -/
def updateEntry {κ : Type} [DecidableEq κ] {α : Type}
    (k : κ) (v : α) : List (κ × α) → List (κ × α)
  | [] => []
  | (k', v') :: rest =>
    if k' = k then (k', v) :: rest else (k', v') :: updateEntry k v rest

/-- One loop iteration of `deduplicate_by_session_id`: record an unseen
`session_id`, else keep the entry with the larger `last_modified`
(strictly larger replaces, ties keep the existing one). -/
def stepId (acc : List (Str × SessionData)) (s : SessionData) :
    List (Str × SessionData) :=
  match lookupKey s.session_id acc with
  | none => acc ++ [(s.session_id, s)]
  | some existing =>
    if existing.last_modified < s.last_modified then
      updateEntry s.session_id s acc
    else acc

/-- `SessionDeduplicator.deduplicate_by_session_id`. -/
def deduplicate_by_session_id (sessions : List SessionData) :
    List SessionData :=
  (sessions.foldl stepId []).map Prod.snd

/-- One loop iteration of `deduplicate_by_fingerprint`: keep the first
occurrence of each fingerprint, discard later ones. -/
def stepFp (acc : List ((DateTime × Str × Str) × SessionData))
    (s : SessionData) : List ((DateTime × Str × Str) × SessionData) :=
  match lookupKey s.content_fingerprint acc with
  | none => acc ++ [(s.content_fingerprint, s)]
  | some _ => acc

/-- `SessionDeduplicator.deduplicate_by_fingerprint`. -/
def deduplicate_by_fingerprint (sessions : List SessionData) :
    List SessionData :=
  (sessions.foldl stepFp []).map Prod.snd

/-- `SessionDeduplicator.deduplicate`: dispatch on the strategy string;
`"both"` and any unrecognized strategy apply the identity strategy and
then the fingerprint strategy to its output. -/
def deduplicate (sessions : List SessionData) (strategy : String) :
    List SessionData :=
  if strategy = "none" then sessions
  else if strategy = "session_id" then deduplicate_by_session_id sessions
  else if strategy = "fingerprint" then deduplicate_by_fingerprint sessions
  else if strategy = "both" then
    deduplicate_by_fingerprint (deduplicate_by_session_id sessions)
  else -- unknown strategy: warn and fall back to "both"
    deduplicate_by_fingerprint (deduplicate_by_session_id sessions)

/-- `DEDUPLICATION_STRATEGY` from `cc_fi/constants.py`. -/
def DEDUPLICATION_STRATEGY : String := "both"

/-! ## Serialization (`SessionData.to_dict` / `SessionData.from_dict`)

The JSON values appearing in a serialized session record: strings,
integers (`message_count`, and `last_modified` under the integer-timestamp
model) and the ISO-8601 timestamp.  `datetime.fromisoformat` inverts
`datetime.isoformat`, so the serialized timestamp is carried as the
`DateTime` it denotes; `from_dict` raises `ValueError` when the value at
`"timestamp"` is not a valid ISO string, which the model renders as a type
error on any non-timestamp value. -/
inductive CValue where
  | vs (v : Str)
  | vi (v : Int)
  | vt (v : DateTime)
deriving DecidableEq, Repr

/-- A serialized record: a Python dict, modelled as an association list in
insertion order. -/
abbrev RecordDict := List (String × CValue)

/-- Errors of `SessionData.from_dict`: `KeyError` for a missing required
field, `ValueError`/`TypeError` for a value of the wrong shape (in the
code this surfaces when `datetime.fromisoformat` or `Path` rejects the
value; for the plain string fields Python would defer the error, but no
property below ever reaches that branch). -/
inductive DictError where
  | keyError (k : String)
  | valueError
deriving DecidableEq, Repr

/-- `data[k]` expected to be a string. -/
def getStr (d : RecordDict) (k : String) : Except DictError Str :=
  match d.lookup k with
  | some (CValue.vs v) => Except.ok v
  | some _ => Except.error DictError.valueError
  | none => Except.error (DictError.keyError k)

/-- `data[k]` expected to be an integer. -/
def getInt (d : RecordDict) (k : String) : Except DictError Int :=
  match d.lookup k with
  | some (CValue.vi v) => Except.ok v
  | some _ => Except.error DictError.valueError
  | none => Except.error (DictError.keyError k)

/-- `datetime.fromisoformat(data[k])`. -/
def getTime (d : RecordDict) (k : String) : Except DictError DateTime :=
  match d.lookup k with
  | some (CValue.vt v) => Except.ok v
  | some _ => Except.error DictError.valueError
  | none => Except.error (DictError.keyError k)

namespace SessionData

/-- `SessionData.to_dict`: all eleven fields, in the order of the Python
dict literal, the timestamp as its ISO form and the path as a string. -/
def to_dict (s : SessionData) : RecordDict :=
  [("session_id", CValue.vs s.session_id),
   ("cwd", CValue.vs s.cwd),
   ("project_name", CValue.vs s.project_name),
   ("git_branch", CValue.vs s.git_branch),
   ("timestamp", CValue.vt s.timestamp),
   ("first_message", CValue.vs s.first_message),
   ("last_message", CValue.vs s.last_message),
   ("message_count", CValue.vi s.message_count),
   ("file_path", CValue.vs s.file_path),
   ("last_modified", CValue.vi s.last_modified),
   ("full_content", CValue.vs s.full_content)]

/-- `data.get("full_content", "")`: absent key defaults to the empty
string (the backwards-compatibility case). -/
def getFullContent (d : RecordDict) : Except DictError Str :=
  match d.lookup "full_content" with
  | some (CValue.vs v) => Except.ok v
  | some _ => Except.error DictError.valueError
  | none => Except.ok []

/-- `SessionData.from_dict`: read every required field with `data[...]`
(raising `KeyError` when absent), parse the timestamp, wrap the path, and
default a missing `full_content` to the empty string. -/
def from_dict (d : RecordDict) : Except DictError SessionData := do
  let sid ← getStr d "session_id"
  let cwd ← getStr d "cwd"
  let pn ← getStr d "project_name"
  let gb ← getStr d "git_branch"
  let ts ← getTime d "timestamp"
  let fm ← getStr d "first_message"
  let lm ← getStr d "last_message"
  let mc ← getInt d "message_count"
  let fp ← getStr d "file_path"
  let lmod ← getInt d "last_modified"
  let fc ← getFullContent d
  Except.ok ⟨sid, cwd, pn, gb, ts, fm, lm, mc, fp, lmod, fc⟩

end SessionData

/-- The decoding loop of `load_cache`:
`[SessionData.from_dict(item) for item in cache_data["sessions"]]`, with
the first raised error aborting the whole load. -/
def decodeRecords : List RecordDict → Except DictError (List SessionData)
  | [] => Except.ok []
  | d :: rest => do
    let s ← SessionData.from_dict d
    let ss ← decodeRecords rest
    Except.ok (s :: ss)

/-! ## Cache manager (`cc_fi/core/cache.py`) -/

/-- `has_content`: true iff the session has a non-whitespace first or last
message.  Python `str.strip()` strips whitespace from both ends; emptiness
of the stripped string is emptiness after dropping whitespace. -/
def pyIsSpace (c : Char) : Bool :=
  c = ' ' ∨ c = '\t' ∨ c = '\n' ∨ c = '\r' ∨ c = '\x0b' ∨ c = '\x0c'

/-- Python `str.strip()`: drop whitespace from both ends. -/
def pyStrip (s : Str) : Str :=
  ((s.dropWhile pyIsSpace).reverse.dropWhile pyIsSpace).reverse

/-- `has_content(session)` from `cc_fi/core/cache.py`. -/
def has_content (s : SessionData) : Bool :=
  !(pyStrip s.first_message).isEmpty || !(pyStrip s.last_message).isEmpty

/-- `filter_empty_sessions`. -/
def filter_empty_sessions (sessions : List SessionData) :
    List SessionData :=
  sessions.filter has_content

/-- The ordering used by `sort_sessions_by_recency` and `index_sessions`:
`last_modified` descending. -/
def byRecency (a b : SessionData) : Prop :=
  b.last_modified ≤ a.last_modified

instance : DecidableRel byRecency := fun a b =>
  inferInstanceAs (Decidable (b.last_modified ≤ a.last_modified))

instance : IsTotal SessionData byRecency :=
  ⟨fun a b => Int.le_total b.last_modified a.last_modified⟩

instance : IsTrans SessionData byRecency :=
  ⟨fun _ _ _ h h' => le_trans h' h⟩

/-- `sort_sessions_by_recency`: a stable sort on the `last_modified` key,
descending (Python `sorted(..., key=..., reverse=True)`). -/
def sort_sessions_by_recency (sessions : List SessionData) :
    List SessionData :=
  List.insertionSort byRecency sessions

/-- The filesystem/environment state `get_sessions_with_cache` interacts
with, made explicit: the `is_cache_valid` verdict, the outcome of
`load_cache` were it attempted, whether the projects directory exists,
the per-file parse results of `index_sessions` in discovery order, and
whether `save_cache` would succeed. -/
structure FsEnv where
  cacheValid : Bool
  loadResult : Except DictError (List SessionData)
  discoveryOk : Bool
  rawSessions : List SessionData
  saveOk : Bool

/-- Exceptions that can escape the cache layer: `FileNotFoundError` from
`find_session_files`, and `OSError` from `save_cache`. -/
inductive CcError where
  | discoveryError
  | saveOSError
deriving DecidableEq, Repr

/-- `index_sessions`: discover and parse session files (the parse results
are supplied by the environment), then sort by `last_modified` descending;
raises `FileNotFoundError` when the projects directory is missing. -/
def index_sessions (env : FsEnv) : Except CcError (List SessionData) :=
  if env.discoveryOk then
    Except.ok (sort_sessions_by_recency env.rawSessions)
  else Except.error CcError.discoveryError

/-- The rebuild pipeline of `get_sessions_with_cache`: index, deduplicate
with the configured strategy, drop empty sessions. -/
def rebuildResult (env : FsEnv) : List SessionData :=
  filter_empty_sessions
    (deduplicate (sort_sessions_by_recency env.rawSessions)
      DEDUPLICATION_STRATEGY)

/-- The code below the `try` block of `get_sessions_with_cache`: index,
deduplicate with the configured strategy, drop empty sessions, then call
`save_cache` — whose `OSError`, like the `FileNotFoundError` of
`index_sessions`, is *not* caught and escapes. -/
def rebuildPath (env : FsEnv) : Except CcError (List SessionData) :=
  match index_sessions env with
  | Except.error e => Except.error e
  | Except.ok sessions =>
    let sessions := deduplicate sessions DEDUPLICATION_STRATEGY
    let sessions := filter_empty_sessions sessions
    if env.saveOk then Except.ok sessions
    else Except.error CcError.saveOSError

/-- `get_sessions_with_cache`: on a valid cache (unless `force_rebuild`)
attempt `load_cache`, filter empty sessions and sort; any load failure is
caught (logged) and falls through to the rebuild path. -/
def get_sessions_with_cache (env : FsEnv) (force_rebuild : Bool) :
    Except CcError (List SessionData) :=
  if !force_rebuild && env.cacheValid then
    match env.loadResult with
    | Except.ok s =>
      Except.ok (sort_sessions_by_recency (filter_empty_sessions s))
    | Except.error _ => rebuildPath env -- logged, falls through
  else rebuildPath env

/-! ## Formatter (`cc_fi/core/formatter.py`)

Layout constants from `cc_fi/constants.py`, and the ANSI color strings.
Reading the terminal width (`shutil.get_terminal_size().columns`) and the
home directory (`Path.home()`) are the formatter's two impurities; both
are passed in explicitly here. -/

def PROJECT_COLUMN_WIDTH : Int := 20
def PATH_COLUMN_WIDTH : Int := 40
def TIME_COLUMN_WIDTH : Int := 16

def COLOR_GREEN : Str := str "\x1b[32m"
def COLOR_BLUE : Str := str "\x1b[34m"
def COLOR_YELLOW : Str := str "\x1b[33m"
def COLOR_RED : Str := str "\x1b[31m"
def COLOR_BOLD : Str := str "\x1b[1m"
def COLOR_RESET : Str := str "\x1b[0m"
def COLOR_MAUVE : Str := str "\x1b[38;2;198;160;246m"
def COLOR_LAVENDER : Str := str "\x1b[38;2;183;189;248m"

/-- `get_dynamic_column_widths`, as a function of the reported terminal
width: a report of exactly 80 columns is replaced by 200; 6 columns of
border/padding and the fixed columns plus separators (8) are subtracted;
a remainder below 2 yields the bare minimum `(5, 5)`; otherwise the
remainder less the 2-column separator, floored at 10, is split evenly
with the odd column going to FIRST. -/
def get_dynamic_column_widths (terminal_width : Int) : Int × Int :=
  let tw := if terminal_width = 80 then 200 else terminal_width
  let usable_width := tw - 6
  let fixed_width :=
    PROJECT_COLUMN_WIDTH + PATH_COLUMN_WIDTH + TIME_COLUMN_WIDTH + 8
  let remaining := usable_width - fixed_width
  if remaining < 2 then (5, 5)
  else
    let available_for_columns := max (remaining - 2) 10
    let recent_width := available_for_columns / 2
    (recent_width, available_for_columns - recent_width)

/-- `text.replace("\n", " ").replace("\r", " ").replace("\t", " ")`. -/
def replaceNlTab (s : Str) : Str :=
  s.map fun c => if c = '\n' ∨ c = '\r' ∨ c = '\t' then ' ' else c

/-- `re.sub(r"\s+", " ", ...)`: collapse every run of whitespace to a
single space (Python `\s` also covers some non-ASCII whitespace, which
the `Char`-wise model approximates by the ASCII set — no property below
distinguishes them). -/
def collapseWs : Str → Str
  | [] => []
  | [c] => if pyIsSpace c then [' '] else [c]
  | c :: c' :: rest =>
    if pyIsSpace c && pyIsSpace c' then collapseWs (c' :: rest)
    else (if pyIsSpace c then ' ' else c) :: collapseWs (c' :: rest)

/-- `normalize_whitespace`: newlines/tabs to spaces, collapse runs, strip. -/
def normalize_whitespace (s : Str) : Str :=
  pyStrip (collapseWs (replaceNlTab s))

/-- `str.ljust(w)`: pad with spaces on the right up to width `w`. -/
def ljust (s : Str) (w : Int) : Str :=
  s ++ List.replicate (w - (s.length : Int)).toNat ' '

/-- `truncate_message`: normalize, return unchanged when within the
bound, else cut to `max_length - 3` characters and append `"..."`. -/
def truncate_message (message : Str) (max_length : Int) : Str :=
  let normalized := normalize_whitespace message
  if (normalized.length : Int) ≤ max_length then normalized
  else pythonTake normalized (max_length - 3) ++ str "..."

/-- Month names for `strftime("%b")`. -/
def monthAbbrev (m : Nat) : Str :=
  (["Jan", "Feb", "Mar", "Apr", "May", "Jun", "Jul", "Aug", "Sep",
    "Oct", "Nov", "Dec"].map str).getD (m - 1) []

/-- Zero-padded two-digit rendering used by `%d`, `%I`, `%M`. -/
def pad2 (n : Nat) : Str :=
  if n < 10 then '0' :: (toString n).data else (toString n).data

/-- `format_timestamp`: `strftime("%b %d, %I:%M %p")` — 12-hour clock,
hour 0 rendered as 12, AM before noon. -/
def format_timestamp (d : DateTime) : Str :=
  let hour12 := if d.hour % 12 = 0 then 12 else d.hour % 12
  let ampm := if d.hour < 12 then str "AM" else str "PM"
  monthAbbrev d.month ++ str " " ++ pad2 d.day ++ str ", " ++
    pad2 hour12 ++ str ":" ++ pad2 d.minute ++ str " " ++ ampm

/-- Boolean list-prefix test (Python `str.startswith`). -/
def isPre : Str → Str → Bool
  | [], _ => true
  | _ :: _, [] => false
  | a :: as, b :: bs => a = b && isPre as bs

/-- `shorten_path`: replace the home-directory prefix by `~` (the code
uses `str.replace(home, "~", 1)` guarded by `startswith`, which rewrites
exactly the leading occurrence). -/
def shorten_path (home path : Str) : Str :=
  if isPre home path then str "~" ++ path.drop home.length else path

/-- Exceptions raised by the formatter at run time: reading a dynamic
attribute that was never set (`AttributeError`), and a call-time
`from cc_fi.constants import ...` naming a constant the module does not
define (`ImportError`). -/
inductive PyError where
  | attributeError
  | importError
deriving DecidableEq, Repr

/-- A session object at run time: the `SessionData` dataclass fields
plus the two *dynamic* attributes `first_message_full` /
`last_message_full`, which only the parser (`cc_fi/core/parser.py`,
absent from `src/`; spec §3 lists them as record attributes) sets on the
instances it returns.  The dataclass in `src/cc_fi/models/session.py`
does not declare them and `SessionData.from_dict` never sets them, so on
a cache-loaded record they are absent (`none`) and reading one raises
`AttributeError`. -/
structure RuntimeSessionData extends SessionData where
  first_message_full : Option Str
  last_message_full : Option Str
deriving DecidableEq

/-- The body of `format_list_row` once both dynamic message attributes
have been read successfully: the colored columnar row.  `home` models
`Path.home()` and `terminal_width` the reported terminal size;
`first_message_full` / `last_message_full` are the attribute values. -/
def renderListRow (home : Str) (terminal_width : Int) (s : SessionData)
    (first_message_full last_message_full : Str) : Str :=
  let widths := get_dynamic_column_widths terminal_width
  let recent_width := widths.1
  let first_width := widths.2
  let project :=
    ljust (pythonTake s.project_name PROJECT_COLUMN_WIDTH)
      PROJECT_COLUMN_WIDTH
  let path :=
    ljust (pythonTake (shorten_path home s.cwd) PATH_COLUMN_WIDTH)
      PATH_COLUMN_WIDTH
  let time_str := ljust (format_timestamp s.timestamp) TIME_COLUMN_WIDTH
  let recent_msg :=
    if last_message_full ≠ [] then pyStrip last_message_full else []
  let recent_msg :=
    if recent_msg = [] then str "(no recent message)" else recent_msg
  let recent := ljust (truncate_message recent_msg recent_width) recent_width
  let first_msg :=
    if first_message_full ≠ [] then pyStrip first_message_full else []
  let first_msg :=
    if first_msg = [] then str "(no first message)" else first_msg
  let first := ljust (truncate_message first_msg first_width) first_width
  COLOR_GREEN ++ project ++ COLOR_RESET ++ str "  " ++
    COLOR_BLUE ++ path ++ COLOR_RESET ++ str "  " ++
    COLOR_YELLOW ++ time_str ++ COLOR_RESET ++ str "  " ++
    COLOR_MAUVE ++ recent ++ COLOR_RESET ++ str "  " ++
    COLOR_LAVENDER ++ first ++ COLOR_RESET

/-- `format_list_row`: reads `session.last_message_full` and
`session.first_message_full` (formatter.py:264 and 269); on a record on
which the parser never set those dynamic attributes the first such read
raises `AttributeError`, otherwise the row is rendered. -/
def format_list_row (home : Str) (terminal_width : Int)
    (s : RuntimeSessionData) : Except PyError Str :=
  match s.last_message_full, s.first_message_full with
  | some lmf, some fmf =>
    Except.ok (renderListRow home terminal_width s.toSessionData fmf lmf)
  | _, _ => Except.error PyError.attributeError

/-- The top-level names `cc_fi/constants.py` actually defines, in source
order.  `format_search_preview` begins with
`from cc_fi.constants import (MAX_PREVIEW_MATCHES, MATCH_CONTEXT_CHARS)`
(formatter.py:485-488); neither name is in this list, so that import —
executed on every call, before any rendering — raises `ImportError`. -/
def constantsNames : List String :=
  ["CACHE_TTL_SECONDS", "CACHE_FILE_PATH", "CLAUDE_PROJECTS_DIR",
   "AGENT_FILE_PREFIX", "SESSION_FILE_EXTENSION",
   "MESSAGE_PREVIEW_LENGTH", "MESSAGE_DETAIL_LENGTH",
   "PROJECT_COLUMN_WIDTH", "PATH_COLUMN_WIDTH", "TIME_COLUMN_WIDTH",
   "RECENT_COLUMN_WIDTH", "FIRST_COLUMN_WIDTH",
   "COLOR_GREEN", "COLOR_BLUE", "COLOR_YELLOW", "COLOR_GRAY",
   "COLOR_BOLD", "COLOR_RESET", "COLOR_MAUVE", "COLOR_LAVENDER",
   "COLOR_OVERLAY0", "COLOR_CATPPUCCIN_BLUE",
   "ICON_PROJECT", "ICON_FOLDER", "ICON_CLOCK", "ICON_COMMENT",
   "ICON_BRANCH", "ICON_RECENT", "ICON_FIRST", "ICON_SESSION",
   "FZF_PREVIEW_HEIGHT_PERCENT", "FZF_HEIGHT_PERCENT",
   "MAX_TAIL_LINES_FOR_LAST_MSG", "DEDUPLICATION_STRATEGY",
   "BOILERPLATE_PATTERNS_FILE"]

/-! ## Fuzzy-match highlighting (`highlight_fuzzy_matches`) -/

/-- Index of the first occurrence of `c` in `u`, if any. -/
def findRel (u : Str) (c : Char) : Option Nat :=
  match u with
  | [] => none
  | a :: rest => if a = c then some 0 else (findRel rest c).map (· + 1)

/-- `text.find(c, pos)` (restricted to single-character needles, which is
how the code calls it): the least absolute index `≥ pos` holding `c`. -/
def findIdxFrom (t : Str) (c : Char) (pos : Nat) : Option Nat :=
  (findRel (t.drop pos) c).map (· + pos)

/-- The position-collection loop: find each query character in order,
greedily advancing the search position past each match; `none` as soon as
one character cannot be found (Python returns the text unchanged there).
-/
def fuzzyGo (tl : Str) (ql : Str) (pos : Nat) : Option (List Nat) :=
  match ql with
  | [] => some []
  | c :: cs =>
    match findIdxFrom tl c pos with
    | none => none
    | some i => (fuzzyGo tl cs (i + 1)).map (i :: ·)

/-- The rebuild loop: text before each match, then the matched character
wrapped in red+bold / reset, then the remainder after the last match. -/
def buildHl (text : Str) : Nat → List Nat → Str
  | last_pos, [] => text.drop last_pos
  | last_pos, p :: ps =>
    ((text.drop last_pos).take (p - last_pos)) ++
      COLOR_RED ++ COLOR_BOLD ++ ((text.drop p).take 1) ++ COLOR_RESET ++
      buildHl text (p + 1) ps

/-- `highlight_fuzzy_matches`: lower-case both sides, collect greedy
subsequence match positions, and either return the input unchanged (empty
query/text, or failed full match) or splice in the ANSI highlighting. -/
def highlight_fuzzy_matches (text query : Str) : Str :=
  if query = [] ∨ text = [] then text
  else
    match fuzzyGo (text.map Char.toLower) (query.map Char.toLower) 0 with
    | none => text
    | some matched_positions =>
      if matched_positions = [] then text
      else buildHl text 0 matched_positions

/-! ## Concrete data used by witnesses and counterexamples -/

/-- A parseable session with content, used by several witnesses. -/
def sWit : SessionData :=
  ⟨str "w1", str "/home/u/proj", str "proj", str "main",
   ⟨2025, 11, 5, 22, 53, 41⟩, str "hello", str "done", 4,
   str "/tmp/w1.jsonl", 1000, str "hello done"⟩

/-- An empty session (whitespace-only messages) with `session_id` "A" and
the larger `last_modified`. -/
def sEmptyHi : SessionData :=
  ⟨str "A", str "/home/u/proj", str "proj", str "",
   ⟨2025, 11, 6, 9, 0, 0⟩, str "   ", str "", 1,
   str "/tmp/a2.jsonl", 2000, str ""⟩

/-- A session with content sharing `session_id` "A", with the smaller
`last_modified`. -/
def sContentLo : SessionData :=
  ⟨str "A", str "/home/u/proj", str "proj", str "",
   ⟨2025, 11, 6, 8, 0, 0⟩, str "fix the bug", str "thanks", 5,
   str "/tmp/a1.jsonl", 1000, str "fix the bug thanks"⟩

/-- Environment where the cache is stale and the cache location is not
writable: the rebuild succeeds in memory but `save_cache` raises. -/
def envSaveFail : FsEnv := ⟨false, Except.ok [], true, [sWit], false⟩

/-- Environment with a stale cache and a writable cache location. -/
def envNormal : FsEnv := ⟨false, Except.ok [], true, [sWit], true⟩

/-- Environment with a fresh-but-corrupt cache whose rebuild sources are
the two "A" sessions: the empty one wins identity dedup by recency and is
then dropped by the empty-session filter. -/
def envCorrupt : FsEnv :=
  ⟨true, Except.error DictError.valueError, true,
   [sEmptyHi, sContentLo], true⟩

/-- Environment with a fresh-but-corrupt cache and one contentful
session. -/
def envCorruptGood : FsEnv :=
  ⟨true, Except.error DictError.valueError, true, [sWit], true⟩

/-- The runtime object produced by loading `sWit` back from the cache:
`SessionData.from_dict (SessionData.to_dict sWit)` rebuilds exactly the
dataclass fields of `sWit` and sets neither dynamic message attribute. -/
def sCacheLoaded : RuntimeSessionData := ⟨sWit, none, none⟩

/-! ## Theorems -/

/-- C10: `get_dynamic_column_widths` treats a reported terminal width of
exactly 80 columns as a 200-column terminal (the same widths are returned
for 80 and 200), and for every reported terminal width both flexible
column widths are at least 5. -/
theorem c10_dynamic_widths :
    get_dynamic_column_widths 80 = get_dynamic_column_widths 200 ∧
    ∀ tw : Int, 5 ≤ (get_dynamic_column_widths tw).1 ∧
      5 ≤ (get_dynamic_column_widths tw).2 := by
  refine ⟨rfl, fun tw => ?_⟩
  unfold get_dynamic_column_widths
  simp only [PROJECT_COLUMN_WIDTH, PATH_COLUMN_WIDTH, TIME_COLUMN_WIDTH]
  refine ⟨?_, ?_⟩ <;>
    · split <;> (try split) <;> dsimp only <;> omega

/-! ### Deduplicator lemmas -/

theorem lookupKey_eq_none_iff {κ α : Type} [DecidableEq κ] {k : κ}
    {l : List (κ × α)} : lookupKey k l = none ↔ ∀ p ∈ l, p.1 ≠ k := by
  induction l with
  | nil => simp [lookupKey]
  | cons p rest ih =>
    obtain ⟨k', v⟩ := p
    by_cases h : k' = k <;> simp [lookupKey, h, ih]

theorem lookupKey_some_mem {κ α : Type} [DecidableEq κ] {k : κ} {v : α} :
    ∀ {l : List (κ × α)}, lookupKey k l = some v → (k, v) ∈ l := by
  intro l
  induction l with
  | nil => intro h; simp [lookupKey] at h
  | cons p rest ih =>
    obtain ⟨k', v'⟩ := p
    intro h
    by_cases hk : k' = k
    · subst hk
      simp [lookupKey] at h
      subst h
      exact List.Mem.head _
    · simp [lookupKey, hk] at h
      exact List.Mem.tail _ (ih h)

theorem updateEntry_map_fst {κ α : Type} [DecidableEq κ] (k : κ) (v : α) :
    ∀ l : List (κ × α), (updateEntry k v l).map Prod.fst = l.map Prod.fst
  | [] => rfl
  | (k', v') :: rest => by
    by_cases h : k' = k <;>
      simp [updateEntry, h, updateEntry_map_fst k v rest]

theorem mem_updateEntry {κ α : Type} [DecidableEq κ] {k : κ} {v : α}
    {p : κ × α} : ∀ {l : List (κ × α)}, p ∈ updateEntry k v l →
      p = (k, v) ∨ p ∈ l := by
  intro l
  induction l with
  | nil => intro h; simp [updateEntry] at h
  | cons q rest ih =>
    obtain ⟨k', v'⟩ := q
    intro h
    by_cases hk : k' = k
    · subst hk
      simp [updateEntry] at h
      rcases h with h | h
      · exact Or.inl (by simp [h])
      · exact Or.inr (List.mem_cons_of_mem _ h)
    · simp [updateEntry, hk] at h
      rcases h with h | h
      · exact Or.inr (by simp [h])
      · rcases ih h with h' | h'
        · exact Or.inl h'
        · exact Or.inr (List.mem_cons_of_mem _ h')

theorem stepId_eq_append {acc : List (Str × SessionData)} {s : SessionData}
    (h : lookupKey s.session_id acc = none) :
    stepId acc s = acc ++ [(s.session_id, s)] := by
  unfold stepId; rw [h]

theorem stepId_eq_update {acc : List (Str × SessionData)} {s existing}
    (h : lookupKey s.session_id acc = some existing)
    (hlt : existing.last_modified < s.last_modified) :
    stepId acc s = updateEntry s.session_id s acc := by
  unfold stepId; rw [h]; simp [hlt]

theorem stepId_eq_same {acc : List (Str × SessionData)} {s existing}
    (h : lookupKey s.session_id acc = some existing)
    (hlt : ¬ existing.last_modified < s.last_modified) :
    stepId acc s = acc := by
  unfold stepId; rw [h]; simp [hlt]

theorem stepFp_eq_append
    {acc : List ((DateTime × Str × Str) × SessionData)} {s : SessionData}
    (h : lookupKey s.content_fingerprint acc = none) :
    stepFp acc s = acc ++ [(s.content_fingerprint, s)] := by
  unfold stepFp; rw [h]

theorem stepFp_eq_same
    {acc : List ((DateTime × Str × Str) × SessionData)} {s v}
    (h : lookupKey s.content_fingerprint acc = some v) :
    stepFp acc s = acc := by
  unfold stepFp; rw [h]

theorem stepId_preserves (acc : List (Str × SessionData)) (s : SessionData)
    (h1 : ∀ p ∈ acc, p.1 = p.2.session_id)
    (h2 : (acc.map Prod.fst).Nodup) :
    (∀ p ∈ stepId acc s, p.1 = p.2.session_id) ∧
      ((stepId acc s).map Prod.fst).Nodup := by
  cases hl : lookupKey s.session_id acc with
  | none =>
    rw [stepId_eq_append hl]
    constructor
    · intro p hp
      rcases List.mem_append.mp hp with h | h
      · exact h1 p h
      · simp at h; subst h; rfl
    · rw [List.map_append]
      refine List.Nodup.append h2 (List.nodup_singleton _) ?_
      intro a ha hb
      simp at hb
      subst hb
      rcases List.mem_map.mp ha with ⟨p, hp, hfst⟩
      exact (lookupKey_eq_none_iff.mp hl p hp) hfst
  | some existing =>
    by_cases hlt : existing.last_modified < s.last_modified
    · rw [stepId_eq_update hl hlt]
      constructor
      · intro p hp
        rcases mem_updateEntry hp with h | h
        · subst h; rfl
        · exact h1 p h
      · rw [updateEntry_map_fst]; exact h2
    · rw [stepId_eq_same hl hlt]; exact ⟨h1, h2⟩

theorem stepFp_preserves
    (acc : List ((DateTime × Str × Str) × SessionData)) (s : SessionData)
    (h1 : ∀ p ∈ acc, p.1 = p.2.content_fingerprint)
    (h2 : (acc.map Prod.fst).Nodup) :
    (∀ p ∈ stepFp acc s, p.1 = p.2.content_fingerprint) ∧
      ((stepFp acc s).map Prod.fst).Nodup := by
  cases hl : lookupKey s.content_fingerprint acc with
  | none =>
    rw [stepFp_eq_append hl]
    constructor
    · intro p hp
      rcases List.mem_append.mp hp with h | h
      · exact h1 p h
      · simp at h; subst h; rfl
    · rw [List.map_append]
      refine List.Nodup.append h2 (List.nodup_singleton _) ?_
      intro a ha hb
      simp at hb
      subst hb
      rcases List.mem_map.mp ha with ⟨p, hp, hfst⟩
      exact (lookupKey_eq_none_iff.mp hl p hp) hfst
  | some v => rw [stepFp_eq_same hl]; exact ⟨h1, h2⟩

theorem foldl_stepId_inv (l : List SessionData) :
    ∀ acc, (∀ p ∈ acc, p.1 = p.2.session_id) →
      (acc.map Prod.fst).Nodup →
      (∀ p ∈ l.foldl stepId acc, p.1 = p.2.session_id) ∧
        ((l.foldl stepId acc).map Prod.fst).Nodup := by
  induction l with
  | nil => exact fun acc h1 h2 => ⟨h1, h2⟩
  | cons s rest ih =>
    intro acc h1 h2
    have h := stepId_preserves acc s h1 h2
    exact ih (stepId acc s) h.1 h.2

theorem foldl_stepFp_inv (l : List SessionData) :
    ∀ acc, (∀ p ∈ acc, p.1 = p.2.content_fingerprint) →
      (acc.map Prod.fst).Nodup →
      (∀ p ∈ l.foldl stepFp acc, p.1 = p.2.content_fingerprint) ∧
        ((l.foldl stepFp acc).map Prod.fst).Nodup := by
  induction l with
  | nil => exact fun acc h1 h2 => ⟨h1, h2⟩
  | cons s rest ih =>
    intro acc h1 h2
    have h := stepFp_preserves acc s h1 h2
    exact ih (stepFp acc s) h.1 h.2

theorem dedupId_pairwise (l : List SessionData) :
    (deduplicate_by_session_id l).Pairwise
      (fun a b => a.session_id ≠ b.session_id) := by
  have h := foldl_stepId_inv l [] (by simp) (by simp)
  unfold deduplicate_by_session_id
  rw [List.pairwise_map]
  have hp : (l.foldl stepId []).Pairwise (fun p q => p.1 ≠ q.1) :=
    List.pairwise_map.mp h.2
  exact hp.imp_of_mem fun {p q} hp' hq' hne => by
    rw [← h.1 p hp', ← h.1 q hq']; exact hne

theorem dedupFp_pairwise (l : List SessionData) :
    (deduplicate_by_fingerprint l).Pairwise
      (fun a b => a.content_fingerprint ≠ b.content_fingerprint) := by
  have h := foldl_stepFp_inv l [] (by simp) (by simp)
  unfold deduplicate_by_fingerprint
  rw [List.pairwise_map]
  have hp : (l.foldl stepFp []).Pairwise (fun p q => p.1 ≠ q.1) :=
    List.pairwise_map.mp h.2
  exact hp.imp_of_mem fun {p q} hp' hq' hne => by
    rw [← h.1 p hp', ← h.1 q hq']; exact hne

theorem foldl_stepFp_map_snd (l : List SessionData) :
    ∀ acc, ∃ t, List.Sublist t l ∧
      (l.foldl stepFp acc).map Prod.snd = acc.map Prod.snd ++ t := by
  induction l with
  | nil => exact fun acc => ⟨[], List.Sublist.refl _, by simp⟩
  | cons s rest ih =>
    intro acc
    cases hl : lookupKey s.content_fingerprint acc with
    | none =>
      obtain ⟨t, ht, heq⟩ := ih (acc ++ [(s.content_fingerprint, s)])
      refine ⟨s :: t, List.Sublist.cons₂ s ht, ?_⟩
      have hstep : (s :: rest).foldl stepFp acc =
          rest.foldl stepFp (acc ++ [(s.content_fingerprint, s)]) := by
        rw [List.foldl_cons, stepFp_eq_append hl]
      rw [hstep, heq]
      simp
    | some v =>
      obtain ⟨t, ht, heq⟩ := ih acc
      refine ⟨t, List.Sublist.cons s ht, ?_⟩
      rw [List.foldl_cons, stepFp_eq_same hl, heq]

theorem dedupFp_sublist (l : List SessionData) :
    List.Sublist (deduplicate_by_fingerprint l) l := by
  obtain ⟨t, ht, heq⟩ := foldl_stepFp_map_snd l []
  unfold deduplicate_by_fingerprint
  rw [heq]
  simpa using ht

theorem foldl_stepId_map_snd_sorted (l : List SessionData) :
    ∀ acc, l.Pairwise byRecency →
      (∀ s' ∈ l, ∀ p ∈ acc, s'.last_modified ≤ p.2.last_modified) →
      ∃ t, List.Sublist t l ∧
        (l.foldl stepId acc).map Prod.snd = acc.map Prod.snd ++ t := by
  induction l with
  | nil => exact fun acc _ _ => ⟨[], List.Sublist.refl _, by simp⟩
  | cons s rest ih =>
    intro acc hsort hbound
    have hhd : ∀ b ∈ rest, b.last_modified ≤ s.last_modified :=
      fun b hb => (List.pairwise_cons.mp hsort).1 b hb
    have htail := (List.pairwise_cons.mp hsort).2
    cases hl : lookupKey s.session_id acc with
    | none =>
      obtain ⟨t, ht, heq⟩ := ih (acc ++ [(s.session_id, s)]) htail
        (fun s' hs' p hp => by
          rcases List.mem_append.mp hp with h | h
          · exact hbound s' (List.mem_cons_of_mem _ hs') p h
          · simp at h; subst h; exact hhd s' hs')
      refine ⟨s :: t, List.Sublist.cons₂ s ht, ?_⟩
      have hstep : (s :: rest).foldl stepId acc =
          rest.foldl stepId (acc ++ [(s.session_id, s)]) := by
        rw [List.foldl_cons, stepId_eq_append hl]
      rw [hstep, heq]
      simp
    | some existing =>
      have hmem := lookupKey_some_mem hl
      have hle : s.last_modified ≤ existing.last_modified :=
        hbound s (List.mem_cons_self _ _) (s.session_id, existing) hmem
      obtain ⟨t, ht, heq⟩ := ih acc htail
        (fun s' hs' p hp => hbound s' (List.mem_cons_of_mem _ hs') p hp)
      refine ⟨t, List.Sublist.cons s ht, ?_⟩
      rw [List.foldl_cons, stepId_eq_same hl (not_lt.mpr hle), heq]

theorem dedupId_sublist_of_sorted {l : List SessionData}
    (h : l.Pairwise byRecency) : List.Sublist (deduplicate_by_session_id l) l := by
  obtain ⟨t, ht, heq⟩ :=
    foldl_stepId_map_snd_sorted l [] h (by simp)
  unfold deduplicate_by_session_id
  rw [heq]
  simpa using ht

theorem foldl_stepId_fresh (l : List SessionData) :
    ∀ acc, l.Pairwise (fun a b => a.session_id ≠ b.session_id) →
      (∀ s ∈ l, ∀ p ∈ acc, p.1 ≠ s.session_id) →
      l.foldl stepId acc = acc ++ l.map (fun s => (s.session_id, s)) := by
  induction l with
  | nil => intro acc _ _; simp
  | cons s rest ih =>
    intro acc hpair hfresh
    have hl : lookupKey s.session_id acc = none :=
      lookupKey_eq_none_iff.mpr fun p hp =>
        hfresh s (List.mem_cons_self _ _) p hp
    have hfresh' : ∀ s' ∈ rest, ∀ p ∈ acc ++ [(s.session_id, s)],
        p.1 ≠ s'.session_id := by
      intro s' hs' p hp
      rcases List.mem_append.mp hp with h | h
      · exact hfresh s' (List.mem_cons_of_mem _ hs') p h
      · simp at h; subst h
        exact (List.pairwise_cons.mp hpair).1 s' hs'
    rw [List.foldl_cons, stepId_eq_append hl,
      ih _ (List.pairwise_cons.mp hpair).2 hfresh']
    simp

theorem foldl_stepFp_fresh (l : List SessionData) :
    ∀ acc, l.Pairwise
        (fun a b => a.content_fingerprint ≠ b.content_fingerprint) →
      (∀ s ∈ l, ∀ p ∈ acc, p.1 ≠ s.content_fingerprint) →
      l.foldl stepFp acc =
        acc ++ l.map (fun s => (s.content_fingerprint, s)) := by
  induction l with
  | nil => intro acc _ _; simp
  | cons s rest ih =>
    intro acc hpair hfresh
    have hl : lookupKey s.content_fingerprint acc = none :=
      lookupKey_eq_none_iff.mpr fun p hp =>
        hfresh s (List.mem_cons_self _ _) p hp
    have hfresh' : ∀ s' ∈ rest, ∀ p ∈ acc ++ [(s.content_fingerprint, s)],
        p.1 ≠ s'.content_fingerprint := by
      intro s' hs' p hp
      rcases List.mem_append.mp hp with h | h
      · exact hfresh s' (List.mem_cons_of_mem _ hs') p h
      · simp at h; subst h
        exact (List.pairwise_cons.mp hpair).1 s' hs'
    rw [List.foldl_cons, stepFp_eq_append hl,
      ih _ (List.pairwise_cons.mp hpair).2 hfresh']
    simp

theorem dedupId_of_pairwise {l : List SessionData}
    (h : l.Pairwise (fun a b => a.session_id ≠ b.session_id)) :
    deduplicate_by_session_id l = l := by
  unfold deduplicate_by_session_id
  rw [foldl_stepId_fresh l [] h (by simp)]
  simp only [List.nil_append, List.map_map]
  exact List.map_id _

theorem dedupFp_of_pairwise {l : List SessionData}
    (h : l.Pairwise
      (fun a b => a.content_fingerprint ≠ b.content_fingerprint)) :
    deduplicate_by_fingerprint l = l := by
  unfold deduplicate_by_fingerprint
  rw [foldl_stepFp_fresh l [] h (by simp)]
  simp only [List.nil_append, List.map_map]
  exact List.map_id _

theorem deduplicate_both_eq (S : List SessionData) :
    deduplicate S "both" =
      deduplicate_by_fingerprint (deduplicate_by_session_id S) := by
  simp [deduplicate]

/-- C4: `deduplicate(S, "both")` applies the session-id strategy first and
the fingerprint strategy to its output, and its result contains no two
records sharing a `session_id` and no two records sharing a content
fingerprint. -/
theorem c4_both_composition (S : List SessionData) :
    deduplicate S "both" =
      deduplicate_by_fingerprint (deduplicate_by_session_id S) ∧
    (deduplicate S "both").Pairwise
      (fun a b => a.session_id ≠ b.session_id) ∧
    (deduplicate S "both").Pairwise
      (fun a b => a.content_fingerprint ≠ b.content_fingerprint) := by
  refine ⟨deduplicate_both_eq S, ?_, ?_⟩
  · rw [deduplicate_both_eq S]
    exact List.Pairwise.sublist (dedupFp_sublist _) (dedupId_pairwise S)
  · rw [deduplicate_both_eq S]
    exact dedupFp_pairwise _

/-- C5: deduplication with strategy `"both"` is idempotent:
`deduplicate(deduplicate(S, "both"), "both") = deduplicate(S, "both")`
for every record list `S` (proved as equality of lists, which implies the
spec's multiset reading). -/
theorem c5_both_idempotent (S : List SessionData) :
    deduplicate (deduplicate S "both") "both" = deduplicate S "both" := by
  have hids : (deduplicate_by_fingerprint
      (deduplicate_by_session_id S)).Pairwise
      (fun a b => a.session_id ≠ b.session_id) :=
    List.Pairwise.sublist (dedupFp_sublist _) (dedupId_pairwise S)
  have hfps := dedupFp_pairwise (deduplicate_by_session_id S)
  rw [deduplicate_both_eq S, deduplicate_both_eq _,
    dedupId_of_pairwise hids, dedupFp_of_pairwise hfps]

/-- C6: cache serialization round-trips losslessly: for every session
record, `SessionData.from_dict (SessionData.to_dict s)` — the composition
performed by `load_cache` on what `save_cache` wrote — reproduces every
field exactly (full structure equality, so in particular the unbounded
`full_content`, the timestamp and the file path), and consequently
decoding a whole saved session list reproduces the list. -/
theorem c6_cache_roundtrip :
    (∀ s : SessionData,
      SessionData.from_dict (SessionData.to_dict s) = Except.ok s) ∧
    ∀ S : List SessionData,
      decodeRecords (S.map SessionData.to_dict) = Except.ok S := by
  have h1 : ∀ s : SessionData,
      SessionData.from_dict (SessionData.to_dict s) = Except.ok s :=
    fun s => rfl
  refine ⟨h1, fun S => ?_⟩
  induction S with
  | nil => rfl
  | cons s rest ih =>
    simp only [List.map_cons, decodeRecords, h1 s, ih]
    rfl

/-- C9: `SessionData.from_dict` tolerates a missing `full_content` key:
for every dictionary holding all the other required record fields (with
well-formed values) and no `"full_content"` entry, deserialization
succeeds and the resulting record's `full_content` is the empty string. -/
theorem c9_missing_full_content
    (sid cwd pn gb : Str) (ts : DateTime) (fm lm : Str) (mc : Int)
    (fp : Str) (lmod : Int) :
    SessionData.from_dict
      [("session_id", CValue.vs sid), ("cwd", CValue.vs cwd),
       ("project_name", CValue.vs pn), ("git_branch", CValue.vs gb),
       ("timestamp", CValue.vt ts), ("first_message", CValue.vs fm),
       ("last_message", CValue.vs lm), ("message_count", CValue.vi mc),
       ("file_path", CValue.vs fp), ("last_modified", CValue.vi lmod)] =
      Except.ok ⟨sid, cwd, pn, gb, ts, fm, lm, mc, fp, lmod, []⟩ := rfl

/-! ### Cache manager lemmas -/

theorem rebuildPath_ok {env : FsEnv} {l : List SessionData}
    (h : rebuildPath env = Except.ok l) : l = rebuildResult env := by
  unfold rebuildPath index_sessions at h
  by_cases hd : env.discoveryOk = true
  · rw [if_pos hd] at h
    by_cases hs : env.saveOk = true
    · simp only [hs, if_true] at h
      injection h with h
      rw [← h]
      rfl
    · simp only [hs, if_false] at h
      cases h
  · rw [if_neg hd] at h
    cases h

theorem rebuild_pairwise (env : FsEnv) :
    (rebuildResult env).Pairwise byRecency := by
  unfold rebuildResult
  have h0 : (sort_sessions_by_recency env.rawSessions).Pairwise byRecency :=
    List.sorted_insertionSort byRecency _
  have h1 : (deduplicate (sort_sessions_by_recency env.rawSessions)
      DEDUPLICATION_STRATEGY).Pairwise byRecency := by
    rw [show DEDUPLICATION_STRATEGY = "both" from rfl, deduplicate_both_eq]
    exact List.Pairwise.sublist (dedupFp_sublist _)
      (List.Pairwise.sublist (dedupId_sublist_of_sorted h0) h0)
  exact List.Pairwise.sublist (List.filter_sublist _) h1

/-- C3: `get_sessions_with_cache` returns its records sorted by
`last_modified` descending on both the cache-hit path (which sorts
explicitly) and the rebuild path (where the sort done by `index_sessions`
is preserved by both deduplication passes and by the empty-record
filter). -/
theorem c3_sorted_output (env : FsEnv) (force : Bool)
    (l : List SessionData)
    (h : get_sessions_with_cache env force = Except.ok l) :
    l.Pairwise byRecency := by
  unfold get_sessions_with_cache at h
  by_cases hb : (!force && env.cacheValid) = true
  · rw [if_pos hb] at h
    cases hload : env.loadResult with
    | ok s =>
      rw [hload] at h
      injection h with h
      rw [← h]
      exact List.sorted_insertionSort byRecency _
    | error e =>
      rw [hload] at h
      rw [rebuildPath_ok h]
      exact rebuild_pairwise env
  · rw [if_neg hb] at h
    rw [rebuildPath_ok h]
    exact rebuild_pairwise env

/-- C3 witness: a concrete run of `get_sessions_with_cache` whose result
the theorem shows sorted. -/
theorem c3_sorted_output_witness :
    get_sessions_with_cache envNormal false = Except.ok [sWit] ∧
    List.Pairwise byRecency [sWit] :=
  ⟨rfl, c3_sorted_output envNormal false [sWit] rfl⟩

/-- C1 counterexample: in `envSaveFail` the cache location is not
writable; the freshly built in-memory list is `[sWit]`, yet
`get_sessions_with_cache` returns the propagated `OSError` of
`save_cache` instead of that list — the claim's "never propagates out"
is false. -/
theorem c1_counterexample :
    get_sessions_with_cache envSaveFail false =
      Except.error CcError.saveOSError ∧
    rebuildResult envSaveFail = [sWit] :=
  ⟨rfl, rfl⟩

/-- C1 amended: when the rebuild path is reached (forced rebuild, an
invalid cache, or a failed load) with the projects directory present and
the cache location not writable, `get_sessions_with_cache` propagates the
`OSError` of `save_cache` to its caller instead of returning the freshly
built list; only cache *load* failures are caught and logged. -/
theorem c1_save_error_propagates (env : FsEnv) (force : Bool)
    (hmiss : force = true ∨ env.cacheValid = false ∨
      ∃ e, env.loadResult = Except.error e)
    (hdisc : env.discoveryOk = true) (hsave : env.saveOk = false) :
    get_sessions_with_cache env force =
      Except.error CcError.saveOSError := by
  have hrb : rebuildPath env = Except.error CcError.saveOSError := by
    unfold rebuildPath index_sessions
    simp [hdisc, hsave]
  unfold get_sessions_with_cache
  rcases hmiss with hf | hc | ⟨e, he⟩
  · simp [hf, hrb]
  · simp [hc, hrb]
  · by_cases hb : (!force && env.cacheValid) = true
    · simp [hb, he, hrb]
    · simp [hb, hrb]

/-- C1 witness for the amended theorem, at the concrete environment of
the counterexample. -/
theorem c1_save_error_propagates_witness :
    get_sessions_with_cache envSaveFail false =
      Except.error CcError.saveOSError :=
  c1_save_error_propagates envSaveFail false (Or.inr (Or.inl rfl)) rfl rfl

/-- C7 counterexample: in `envCorrupt` the cache is fresh but corrupt and
the sources contain a parseable session with content (`sContentLo`), yet
`get_sessions_with_cache false` returns the *empty* list: the contentful
record loses identity deduplication to a more recently modified empty
record with the same `session_id`, which the empty-session filter then
drops — so "given at least one parseable non-empty session source ...
returns a non-empty result" fails as stated (the no-raise part holds). -/
theorem c7_counterexample :
    get_sessions_with_cache envCorrupt false = Except.ok [] ∧
    has_content sContentLo = true ∧
    envCorrupt.rawSessions = [sEmptyHi, sContentLo] :=
  ⟨rfl, rfl, rfl⟩

/-- C7 amended: when the cache is valid but loading fails, the failure is
not raised: `get_sessions_with_cache false` falls through to a full
rebuild and (when saving succeeds and at least one session with content
survives deduplication) returns the freshly rebuilt, correctly
deduplicated, non-empty result. -/
theorem c7_corruption_recovery (env : FsEnv) (e : DictError)
    (hvalid : env.cacheValid = true)
    (hload : env.loadResult = Except.error e)
    (hdisc : env.discoveryOk = true) (hsave : env.saveOk = true)
    (hsome : ∃ s ∈ deduplicate (sort_sessions_by_recency env.rawSessions)
      DEDUPLICATION_STRATEGY, has_content s = true) :
    get_sessions_with_cache env false = Except.ok (rebuildResult env) ∧
    rebuildResult env ≠ [] ∧
    (rebuildResult env).Pairwise
      (fun a b => a.session_id ≠ b.session_id) ∧
    (rebuildResult env).Pairwise
      (fun a b => a.content_fingerprint ≠ b.content_fingerprint) := by
  have hrb : rebuildPath env = Except.ok (rebuildResult env) := by
    unfold rebuildPath index_sessions rebuildResult
    simp [hdisc, hsave]
  refine ⟨?_, ?_, ?_, ?_⟩
  · unfold get_sessions_with_cache
    simp [hvalid, hload, hrb]
  · obtain ⟨s, hs, hc⟩ := hsome
    exact List.ne_nil_of_mem (List.mem_filter.mpr ⟨hs, hc⟩)
  · unfold rebuildResult
    rw [show DEDUPLICATION_STRATEGY = "both" from rfl, deduplicate_both_eq]
    exact List.Pairwise.sublist (List.filter_sublist _)
      (List.Pairwise.sublist (dedupFp_sublist _) (dedupId_pairwise _))
  · unfold rebuildResult
    rw [show DEDUPLICATION_STRATEGY = "both" from rfl, deduplicate_both_eq]
    exact List.Pairwise.sublist (List.filter_sublist _) (dedupFp_pairwise _)

/-- C7 witness for the amended theorem, at a concrete corrupt-cache
environment with one contentful source session. -/
theorem c7_corruption_recovery_witness :
    get_sessions_with_cache envCorruptGood false =
      Except.ok (rebuildResult envCorruptGood) ∧
    rebuildResult envCorruptGood ≠ [] ∧
    (rebuildResult envCorruptGood).Pairwise
      (fun a b => a.session_id ≠ b.session_id) ∧
    (rebuildResult envCorruptGood).Pairwise
      (fun a b => a.content_fingerprint ≠ b.content_fingerprint) :=
  c7_corruption_recovery envCorruptGood DictError.valueError rfl rfl rfl rfl
    ⟨sWit, by decide, rfl⟩

/-! ### Formatter lemmas -/

theorem truncate_ne_nil {msg : Str} (w : Int)
    (h : normalize_whitespace msg ≠ []) : truncate_message msg w ≠ [] := by
  unfold truncate_message
  dsimp only
  split
  · exact h
  · intro hcontr
    rcases List.append_eq_nil.mp hcontr with ⟨-, h3⟩
    simp [str] at h3

/-- On records that do carry the dynamic message attributes, the row
body itself behaves as the spec intends: all-empty message fields render
the `"(no recent message)"` / `"(no first message)"` placeholders
(truncated to the column widths), never an empty cell. -/
theorem renderListRow_placeholder (home : Str) (tw : Int)
    (s : SessionData) (fmf lmf : Str)
    (h1 : pyStrip fmf = [])
    (h2 : pyStrip lmf = []) :
    renderListRow home tw s fmf lmf =
      COLOR_GREEN ++
        ljust (pythonTake s.project_name PROJECT_COLUMN_WIDTH)
          PROJECT_COLUMN_WIDTH ++ COLOR_RESET ++ str "  " ++
      COLOR_BLUE ++
        ljust (pythonTake (shorten_path home s.cwd) PATH_COLUMN_WIDTH)
          PATH_COLUMN_WIDTH ++ COLOR_RESET ++ str "  " ++
      COLOR_YELLOW ++
        ljust (format_timestamp s.timestamp) TIME_COLUMN_WIDTH ++
        COLOR_RESET ++ str "  " ++
      COLOR_MAUVE ++
        ljust (truncate_message (str "(no recent message)")
            (get_dynamic_column_widths tw).1)
          (get_dynamic_column_widths tw).1 ++ COLOR_RESET ++ str "  " ++
      COLOR_LAVENDER ++
        ljust (truncate_message (str "(no first message)")
            (get_dynamic_column_widths tw).2)
          (get_dynamic_column_widths tw).2 ++ COLOR_RESET ∧
    truncate_message (str "(no recent message)")
      (get_dynamic_column_widths tw).1 ≠ [] ∧
    truncate_message (str "(no first message)")
      (get_dynamic_column_widths tw).2 ≠ [] := by
  refine ⟨?_, truncate_ne_nil _ (by decide), truncate_ne_nil _ (by decide)⟩
  unfold renderListRow
  rw [h1, h2]
  simp [ite_self]

/-- C2 (code bug): the rendering functions *do* fail on records the
program actually produces.  `format_list_row` applied to a cache-loaded
record — the output of `SessionData.from_dict`, which rebuilds the
dataclass fields exactly (second conjunct) but sets neither
`first_message_full` nor `last_message_full` — raises `AttributeError`
(formatter.py:264) instead of returning a row; and
`format_search_preview` cannot run at all, because the names it imports
from `cc_fi.constants` at call time, `MAX_PREVIEW_MATCHES` and
`MATCH_CONTEXT_CHARS` (formatter.py:485-488), are not among the names
`constants.py` defines, so every invocation raises `ImportError` before
any rendering.  The spec's "none of these fail" is the evident intent —
the repo's own test (tests/unit/test_formatter.py:106) builds a bare
`SessionData` and calls the preview renderer on it — and the code the
slip. -/
theorem c2_rendering_fails :
    format_list_row (str "/home/u") 80 sCacheLoaded =
      Except.error PyError.attributeError ∧
    SessionData.from_dict (SessionData.to_dict sWit) = Except.ok sWit ∧
    "MAX_PREVIEW_MATCHES" ∉ constantsNames ∧
    "MATCH_CONTEXT_CHARS" ∉ constantsNames :=
  ⟨rfl, rfl, by decide, by decide⟩

/-! ### Fuzzy-highlighting lemmas -/

theorem findRel_some {c : Char} :
    ∀ {u : Str} {j : Nat}, findRel u c = some j →
      ∃ xs ys, u = xs ++ c :: ys ∧ xs.length = j := by
  intro u
  induction u with
  | nil => intro j h; simp [findRel] at h
  | cons a rest ih =>
    intro j h
    by_cases hac : a = c
    · subst hac
      simp [findRel] at h
      exact ⟨[], rest, rfl, h⟩
    · simp [findRel, hac] at h
      rcases h with ⟨j', hj', rfl⟩
      obtain ⟨xs, ys, hu, hlen⟩ := ih hj'
      exact ⟨a :: xs, ys, by rw [hu]; rfl, by simp [hlen]⟩

theorem fuzzyGo_some_sublist {t : Str} :
    ∀ {q : Str} {pos : Nat} {ps : List Nat},
      fuzzyGo t q pos = some ps → List.Sublist q (t.drop pos) := by
  intro q
  induction q with
  | nil => intro pos ps _; exact List.nil_sublist _
  | cons c cs ih =>
    intro pos ps h
    cases hf : findIdxFrom t c pos with
    | none => simp [fuzzyGo, hf] at h
    | some i =>
      cases hrec : fuzzyGo t cs (i + 1) with
      | none => simp [fuzzyGo, hf, hrec] at h
      | some ps' =>
        have hcs := ih hrec
        unfold findIdxFrom at hf
        rcases Option.map_eq_some'.mp hf with ⟨j, hj, hij⟩
        obtain ⟨xs, ys, hu, hlen⟩ := findRel_some hj
        have hdrop : t.drop (i + 1) = ys := by
          have h1 : i + 1 = pos + (j + 1) := by omega
          rw [h1, ← List.drop_drop, hu, ← hlen,
            show xs ++ c :: ys = (xs ++ [c]) ++ ys by simp,
            show xs.length + 1 = (xs ++ [c]).length by simp,
            List.drop_left]
        rw [hdrop] at hcs
        rw [hu]
        exact List.Sublist.trans (List.Sublist.cons₂ c hcs)
          (List.sublist_append_right xs (c :: ys))

/-- C8: fuzzy-match highlighting is total-or-nothing: for every text and
non-empty query, if the query's characters cannot all be found in order
(as a subsequence of the lower-cased text — exactly what the greedy scan
detects) then `highlight_fuzzy_matches` returns the text unchanged, with
no partial highlighting inserted. -/
theorem c8_total_or_nothing (text query : Str) (_hq : query ≠ [])
    (h : ¬ List.Sublist (query.map Char.toLower)
      (text.map Char.toLower)) :
    highlight_fuzzy_matches text query = text := by
  unfold highlight_fuzzy_matches
  by_cases hcond : query = [] ∨ text = []
  · rw [if_pos hcond]
  · rw [if_neg hcond]
    cases hfz : fuzzyGo (text.map Char.toLower)
        (query.map Char.toLower) 0 with
    | none => rfl
    | some ps =>
      exact absurd (by simpa using fuzzyGo_some_sublist hfz) h

/-- C8 witness: a concrete failing query leaves the text byte-identical.
-/
theorem c8_total_or_nothing_witness :
    str "a" ≠ [] ∧
    ¬ List.Sublist ((str "a").map Char.toLower)
      ((str "xyz").map Char.toLower) ∧
    highlight_fuzzy_matches (str "xyz") (str "a") = str "xyz" := by
  have hns : ¬ List.Sublist ((str "a").map Char.toLower)
      ((str "xyz").map Char.toLower) := by
    intro hcontr
    have := hcontr.subset (List.mem_singleton.mpr rfl)
    simp [str] at this
  exact ⟨by simp [str], hns,
    c8_total_or_nothing (str "xyz") (str "a") (by simp [str]) hns⟩
